import Mathlib

/-!
Verification of the tarot-card-reader core (`src/tarot_core.py`) against its
specification. The Python classes `TarotCard`, `TarotDeck` and `TarotReading`
are embedded shallowly: mutation becomes explicit state passing, the random
shuffle becomes a function parameterised by the chosen permutation and by the
per-card coin tosses, and the JSON persistence layer is modelled by an
executable serializer/parser pair over an explicit file-system map.
-/

set_option maxHeartbeats 1600000

/-- Embedding of the Python class `TarotCard`: a name, a description, an
optional image path and a reversed flag (`tarot_core.py`, `__init__`). -/
structure TarotCard where
  name : String
  description : String
  image_file : Option String := none
  reversed : Bool := false
deriving Repr, DecidableEq

/-- Embedding of `TarotCard.flip`: toggles the reversed state. -/
def TarotCard.flip (c : TarotCard) : TarotCard :=
  { c with reversed := !c.reversed }

/-- Embedding of `TarotCard.get_meaning`: the reversed rendering appends the
blocked-energy suffix, the upright one is name-colon-description. -/
def TarotCard.get_meaning (c : TarotCard) : String :=
  if c.reversed then
    c.name ++ " (Reversed): " ++ c.description ++ " - Consider the opposite or blocked energy."
  else
    c.name ++ ": " ++ c.description

/-- The dictionary produced by `TarotCard.to_dict`: the four fields under the
keys name, description, image_file, reversed. -/
structure CardDict where
  name : String
  description : String
  image_file : Option String
  reversed : Bool
deriving Repr, DecidableEq

/-- Embedding of `TarotCard.to_dict`. -/
def TarotCard.to_dict (c : TarotCard) : CardDict :=
  { name := c.name, description := c.description,
    image_file := c.image_file, reversed := c.reversed }

/-- The input mapping handed to `TarotCard.from_dict`: each of the four keys
may be present or absent (`none` = key absent from the Python dict). -/
structure CardData where
  name : Option String
  description : Option String
  image_file : Option (Option String)
  reversed : Option Bool
deriving Repr, DecidableEq

/-- Embedding of `TarotCard.from_dict`: `data['name']` and
`data['description']` raise `KeyError` when absent (the spec's
MalformedSnapshot failure, modelled as `Except.error`); `data.get('image_file')`
and `data.get('reversed', False)` default to `none` and `false`. -/
def TarotCard.from_dict (data : CardData) : Except String TarotCard :=
  match data.name with
  | none => Except.error "MalformedSnapshot: KeyError name"
  | some n =>
    match data.description with
    | none => Except.error "MalformedSnapshot: KeyError description"
    | some d =>
      Except.ok { name := n, description := d,
                  image_file := data.image_file.getD none,
                  reversed := data.reversed.getD false }

/-- The fixed Major Arcana table of `TarotDeck._create_deck` (22 pairs). -/
def major_arcana : List (String × String) :=
  [("The Fool", "New beginnings, spontaneity, innocence"),
   ("The Magician", "Manifestation, resourcefulness, power"),
   ("The High Priestess", "Intuition, sacred knowledge, divine feminine"),
   ("The Empress", "Femininity, beauty, nature, abundance"),
   ("The Emperor", "Authority, structure, control, father-figure"),
   ("The Hierophant", "Spiritual wisdom, religious beliefs, conformity"),
   ("The Lovers", "Love, harmony, relationships, values alignment"),
   ("The Chariot", "Control, willpower, success, determination"),
   ("Strength", "Inner strength, bravery, compassion, focus"),
   ("The Hermit", "Soul searching, introspection, inner guidance"),
   ("Wheel of Fortune", "Good luck, karma, life cycles, destiny"),
   ("Justice", "Justice, fairness, truth, cause and effect"),
   ("The Hanged Man", "Suspension, restriction, letting go"),
   ("Death", "Endings, beginnings, change, transformation"),
   ("Temperance", "Balance, moderation, patience, purpose"),
   ("The Devil", "Shadow self, attachment, addiction, restriction"),
   ("The Tower", "Sudden change, upheaval, chaos, revelation"),
   ("The Star", "Hope, faith, purpose, renewal, spirituality"),
   ("The Moon", "Illusion, fear, anxiety, subconscious, intuition"),
   ("The Sun", "Optimism, fun, warmth, success, vitality"),
   ("Judgement", "Reflection, reckoning, awakening"),
   ("The World", "Completion, integration, accomplishment, travel")]

/-- The Minor Arcana suits, in the fixed order of `_create_deck`. -/
def suits : List String := ["Cups", "Wands", "Swords", "Pentacles"]

/-- The `suit_meanings` dictionary of `_create_deck`, as a lookup function. -/
def suit_meanings (suit : String) : String :=
  if suit = "Cups" then "emotions, intuition, relationships, spirituality"
  else if suit = "Wands" then "creativity, action, passion, career"
  else if suit = "Swords" then "thoughts, communication, conflict, intellect"
  else "material world, resources, money, career"

/-- One numbered Minor Arcana card of `_create_deck`: index 1 is labelled Ace,
the description embeds the suit meaning and the level. -/
def number_card (suit : String) (i : Nat) : TarotCard :=
  { name := if i = 1 then "Ace of " ++ suit else toString i ++ " of " ++ suit,
    description := "Represents " ++ suit_meanings suit ++ " at level " ++ toString i }

/-- The court ranks of `_create_deck`, in order. -/
def court_cards : List String := ["Page", "Knight", "Queen", "King"]

/-- One court card of `_create_deck`. -/
def court_card (suit : String) (court : String) : TarotCard :=
  { name := court ++ " of " ++ suit,
    description := court ++ " energy in the realm of " ++ suit_meanings suit }

/-- Embedding of `TarotDeck._create_deck`: the 22 Major Arcana in table order,
then for each suit the numbered cards 1..10 followed by the four court cards.
Every card starts with `image_file = none` and `reversed = false`. -/
def create_deck : List TarotCard :=
  major_arcana.map (fun p => { name := p.1, description := p.2 }) ++
  (suits.map (fun suit =>
    (List.range' 1 10).map (number_card suit) ++
    court_cards.map (court_card suit))).flatten

/-- Embedding of the Python class `TarotDeck`: an ordered list of cards; the
Python list's end (where `pop` acts) is the Lean list's last element. -/
structure TarotDeck where
  cards : List TarotCard
deriving Repr, DecidableEq

/-- Embedding of `TarotDeck.__init__`: a freshly constructed full deck. -/
def TarotDeck.construct : TarotDeck := ⟨create_deck⟩

/-- Embedding of `TarotDeck.reset`: clears the card list and rebuilds it with
`_create_deck`, regardless of the previous state. -/
def TarotDeck.reset (_d : TarotDeck) : TarotDeck := ⟨create_deck⟩

/-- Embedding of `TarotDeck.remaining_cards`: the current sequence length. -/
def TarotDeck.remaining_cards (d : TarotDeck) : Nat := d.cards.length

/-- Helper for the orientation pass of `TarotDeck.shuffle`: the Python loop
`for card in self.cards: if random.choice([True, False]): card.flip()`, with
the outcome of each `random.choice` supplied by `flips` (card position ↦ coin). -/
def flip_pass (flips : Nat → Bool) : Nat → List TarotCard → List TarotCard
  | _, [] => []
  | i, c :: cs => (if flips i then c.flip else c) :: flip_pass flips (i + 1) cs

/-- Embedding of `TarotDeck.shuffle`: `random.shuffle` replaces the card list
by the permutation `perm` of it chosen by the random generator (the proof `h`
records that it is a permutation of the current list), then each card is
flipped or not according to the coin tosses `flips`. -/
def TarotDeck.shuffle (d : TarotDeck) (perm : List TarotCard)
    (h : d.cards.Perm perm) (flips : Nat → Bool) : TarotDeck :=
  ⟨flip_pass flips 0 perm⟩

/-- Embedding of `TarotDeck.draw_card`: pops the last card of the list when
there is one (returning the popped card and the shortened deck), and returns
`none` with the deck unchanged when the list is empty. Never raises. -/
def TarotDeck.draw_card (d : TarotDeck) : Option TarotCard × TarotDeck :=
  match d.cards.getLast? with
  | some c => (some c, ⟨d.cards.dropLast⟩)
  | none => (none, d)

/-- The loop of `TarotDeck.draw_cards`: `for _ in range(min(count, len(cards)))`
draw one card and append it to the accumulator when one came back. -/
def draw_loop : Nat → TarotDeck → List TarotCard → List TarotCard × TarotDeck
  | 0, d, drawn => (drawn, d)
  | n + 1, d, drawn =>
    match d.draw_card with
    | (some c, d2) => draw_loop n d2 (drawn ++ [c])
    | (none, d2) => draw_loop n d2 drawn

/-- Embedding of `TarotDeck.draw_cards`: the Python `count` is an `int`, and
the loop runs `min(count, len(self.cards))` times (zero times when `count` is
not positive). Never raises. -/
def TarotDeck.draw_cards (d : TarotDeck) (count : Int) : List TarotCard × TarotDeck :=
  draw_loop (min count (d.cards.length : Int)).toNat d []

/-- A reading result dictionary of `TarotReading`: either the error shape
`{"error": message}` or the success shape `{"type", "cards", "interpretation"}`. -/
inductive ReadingResult where
  | err (message : String)
  | ok (type : String) (cards : List CardDict) (interpretation : String)
deriving Repr, DecidableEq

/-- Embedding of the Python class `TarotReading`: an owned deck and the
readings history list. -/
structure TarotReading where
  deck : TarotDeck
  readings_history : List ReadingResult
deriving Repr, DecidableEq

/-- Embedding of `TarotReading.__init__`: a fresh deck and an empty history. -/
def TarotReading.construct : TarotReading := ⟨TarotDeck.construct, []⟩

/-- Embedding of `TarotReading.single_card_reading`: shuffle, draw one card;
with no card the error `"No cards available"` is returned and the history is
untouched; otherwise the Single Card result is built, appended to the history
and returned. `perm`, `h` and `flips` stand for the random choices of the
shuffle, as in `TarotDeck.shuffle`. -/
def TarotReading.single_card_reading (s : TarotReading) (perm : List TarotCard)
    (h : s.deck.cards.Perm perm) (flips : Nat → Bool) :
    ReadingResult × TarotReading :=
  let d1 := s.deck.shuffle perm h flips
  match d1.draw_card with
  | (none, d2) => (ReadingResult.err "No cards available", { s with deck := d2 })
  | (some card, d2) =>
    let reading := ReadingResult.ok "Single Card" [card.to_dict]
      ("Today's guidance: " ++ card.get_meaning)
    (reading, { deck := d2, readings_history := s.readings_history ++ [reading] })

/-- The position names of `three_card_reading`. -/
def three_positions : List String := ["Past", "Present", "Future"]

/-- The interpretation lines shared by the multi-card readings: the Python
loop `for i, card in enumerate(cards)` appends `positions[i] + ": " +
card.get_meaning()`; with at most as many cards as positions this is the
positionwise zip. -/
def interp_lines (positions : List String) (cards : List TarotCard) : List String :=
  List.zipWith (fun p c => p ++ ": " ++ c.get_meaning) positions cards

/-- Embedding of `TarotReading.three_card_reading`: shuffle, draw three cards;
with fewer than three the error `"Not enough cards available"` is returned and
the history is untouched; otherwise the Three Card result is built, appended
to the history and returned. -/
def TarotReading.three_card_reading (s : TarotReading) (perm : List TarotCard)
    (h : s.deck.cards.Perm perm) (flips : Nat → Bool) :
    ReadingResult × TarotReading :=
  let d1 := s.deck.shuffle perm h flips
  let drawn := d1.draw_cards 3
  if drawn.1.length < 3 then
    (ReadingResult.err "Not enough cards available", { s with deck := drawn.2 })
  else
    let reading := ReadingResult.ok "Three Card (Past, Present, Future)"
      (drawn.1.map TarotCard.to_dict)
      (String.intercalate "\n" (interp_lines three_positions drawn.1))
    (reading, { deck := drawn.2, readings_history := s.readings_history ++ [reading] })

/-- The position names of `celtic_cross_reading`. -/
def celtic_positions : List String :=
  ["Present Situation", "Challenge/Cross", "Distant Past/Foundation",
   "Recent Past", "Possible Outcome", "Near Future", "Your Approach",
   "External Influences", "Hopes and Fears", "Final Outcome"]

/-- Embedding of `TarotReading.celtic_cross_reading`: shuffle, draw ten cards;
with fewer than ten the error `"Not enough cards for Celtic Cross reading"` is
returned and the history is untouched; otherwise the Celtic Cross result is
built, appended to the history and returned. -/
def TarotReading.celtic_cross_reading (s : TarotReading) (perm : List TarotCard)
    (h : s.deck.cards.Perm perm) (flips : Nat → Bool) :
    ReadingResult × TarotReading :=
  let d1 := s.deck.shuffle perm h flips
  let drawn := d1.draw_cards 10
  if drawn.1.length < 10 then
    (ReadingResult.err "Not enough cards for Celtic Cross reading", { s with deck := drawn.2 })
  else
    let reading := ReadingResult.ok "Celtic Cross"
      (drawn.1.map TarotCard.to_dict)
      (String.intercalate "\n" (interp_lines celtic_positions drawn.1))
    (reading, { deck := drawn.2, readings_history := s.readings_history ++ [reading] })

/-! ## Helper lemmas about the deck operations -/

/-- Characterization of the `draw_cards` loop: with fuel `m` at most the deck
size, it removes the last `m` cards and returns them in draw order (last card
of the sequence first). -/
theorem draw_loop_spec (m : Nat) : ∀ (l acc : List TarotCard), m ≤ l.length →
    draw_loop m ⟨l⟩ acc = (acc ++ l.reverse.take m, ⟨l.take (l.length - m)⟩) := by
  induction m with
  | zero => intro l acc _; simp [draw_loop]
  | succ m ih =>
    intro l acc hm
    have hne : l ≠ [] := by
      intro h; subst h; simp at hm
    obtain ⟨xs, x, rfl⟩ : ∃ xs x, l = xs ++ [x] :=
      ⟨l.dropLast, l.getLast hne, (List.dropLast_append_getLast hne).symm⟩
    have hdc : (TarotDeck.mk (xs ++ [x])).draw_card = (some x, ⟨xs⟩) := by
      simp [TarotDeck.draw_card, List.getLast?_concat, List.dropLast_concat]
    have hm' : m ≤ xs.length := by simp at hm; omega
    rw [draw_loop, hdc]
    show draw_loop m ⟨xs⟩ (acc ++ [x]) = _
    rw [ih xs (acc ++ [x]) hm']
    have e1 : acc ++ [x] ++ List.take m xs.reverse =
        acc ++ List.take (m + 1) (xs ++ [x]).reverse := by
      simp [List.reverse_append, List.take_succ_cons, List.append_assoc]
    have e2 : List.take (xs.length - m) xs =
        List.take ((xs ++ [x]).length - (m + 1)) (xs ++ [x]) := by
      have hlen : (xs ++ [x]).length = xs.length + 1 := by simp
      rw [hlen]
      have h2 : xs.length + 1 - (m + 1) = xs.length - m := by omega
      rw [h2, List.take_append_of_le_length (by omega)]
    rw [e1, e2]

/-- Closed form of `TarotDeck.draw_cards`: the returned cards are the last
`min count (deck size)` cards in reversed (draw) order, the remaining deck is
the untouched front of the sequence. -/
theorem draw_cards_spec (d : TarotDeck) (n : Int) :
    d.draw_cards n = (d.cards.reverse.take (min n (d.cards.length : Int)).toNat,
      ⟨d.cards.take (d.cards.length - (min n (d.cards.length : Int)).toNat)⟩) := by
  have hk : (min n (d.cards.length : Int)).toNat ≤ d.cards.length := by omega
  exact draw_loop_spec _ d.cards [] hk

/-- Identity of a card up to orientation: its name and description. -/
def card_key (c : TarotCard) : String × String := (c.name, c.description)

/-- The orientation pass of the shuffle never changes a card's name or
description. -/
theorem flip_pass_map_key (flips : Nat → Bool) :
    ∀ (i : Nat) (l : List TarotCard),
      (flip_pass flips i l).map card_key = l.map card_key := by
  intro i l
  induction l generalizing i with
  | nil => rfl
  | cons c cs ih =>
    rw [flip_pass]
    simp only [List.map_cons, ih]
    cases hfi : flips i <;> simp [TarotCard.flip, card_key]

/-- The orientation pass of the shuffle keeps the sequence length. -/
theorem flip_pass_length (flips : Nat → Bool) :
    ∀ (i : Nat) (l : List TarotCard), (flip_pass flips i l).length = l.length := by
  intro i l
  induction l generalizing i with
  | nil => rfl
  | cons c cs ih => rw [flip_pass]; simp [ih]

/-- A shuffle keeps the number of cards in the deck. -/
theorem shuffle_cards_length (d : TarotDeck) (perm : List TarotCard)
    (h : d.cards.Perm perm) (flips : Nat → Bool) :
    (d.shuffle perm h flips).cards.length = d.cards.length := by
  rw [TarotDeck.shuffle]
  show (flip_pass flips 0 perm).length = _
  rw [flip_pass_length]
  exact h.length_eq.symm

/-- Length of the card list returned by `draw_cards`, as an integer. -/
theorem draw_cards_fst_length (d : TarotDeck) (n : Int) :
    ((d.draw_cards n).1.length : Int) = max 0 (min n (d.cards.length : Int)) := by
  rw [draw_cards_spec]
  simp only [List.length_take, List.length_reverse]
  omega

/-- Number of cards left in the deck after `draw_cards`. -/
theorem draw_cards_snd_length (d : TarotDeck) (n : Int) :
    ((d.draw_cards n).2.cards.length : Int) =
      (d.cards.length : Int) - max 0 (min n (d.cards.length : Int)) := by
  rw [draw_cards_spec]
  simp only [List.length_take]
  omega

/-! ## Claim C2: construction and reset -/

/-- The fixed canonical table of the 78 card names, as the specification lists
it: the 22 major entries in order, then for each of the four suits Cups,
Wands, Swords, Pentacles the ten numbered entries (Ace for 1) and the four
court entries Page, Knight, Queen, King. -/
def canonical_names : List String :=
  ["The Fool", "The Magician", "The High Priestess",
   "The Empress", "The Emperor", "The Hierophant",
   "The Lovers", "The Chariot", "Strength",
   "The Hermit", "Wheel of Fortune", "Justice",
   "The Hanged Man", "Death", "Temperance",
   "The Devil", "The Tower", "The Star",
   "The Moon", "The Sun", "Judgement",
   "The World", "Ace of Cups", "2 of Cups",
   "3 of Cups", "4 of Cups", "5 of Cups",
   "6 of Cups", "7 of Cups", "8 of Cups",
   "9 of Cups", "10 of Cups", "Page of Cups",
   "Knight of Cups", "Queen of Cups", "King of Cups",
   "Ace of Wands", "2 of Wands", "3 of Wands",
   "4 of Wands", "5 of Wands", "6 of Wands",
   "7 of Wands", "8 of Wands", "9 of Wands",
   "10 of Wands", "Page of Wands", "Knight of Wands",
   "Queen of Wands", "King of Wands", "Ace of Swords",
   "2 of Swords", "3 of Swords", "4 of Swords",
   "5 of Swords", "6 of Swords", "7 of Swords",
   "8 of Swords", "9 of Swords", "10 of Swords",
   "Page of Swords", "Knight of Swords", "Queen of Swords",
   "King of Swords", "Ace of Pentacles", "2 of Pentacles",
   "3 of Pentacles", "4 of Pentacles", "5 of Pentacles",
   "6 of Pentacles", "7 of Pentacles", "8 of Pentacles",
   "9 of Pentacles", "10 of Pentacles", "Page of Pentacles",
   "Knight of Pentacles", "Queen of Pentacles", "King of Pentacles"]
/-- C2: immediately after construct() (and after reset(), which yields the
identical state regardless of the prior deck), the deck holds exactly 78
cards, their names in order equal the fixed canonical table, those names are
pairwise distinct, every card is upright (`reversed = false`), and reset
equals fresh construction. -/
theorem claim_C2_construct_reset :
    TarotDeck.construct.remaining_cards = 78 ∧
    TarotDeck.construct.cards.map TarotCard.name = canonical_names ∧
    canonical_names.Nodup ∧
    (∀ c, c ∈ TarotDeck.construct.cards → c.reversed = false) ∧
    (∀ d : TarotDeck, d.reset = TarotDeck.construct) :=
  ⟨by decide, by decide, by decide, by decide, fun _ => rfl⟩

/-- Witness for C2: the first card of the constructed deck (The Fool, which
belongs to the deck) is upright. -/
theorem claim_C2_witness :
    ({ name := "The Fool", description := "New beginnings, spontaneity, innocence" } :
      TarotCard).reversed = false :=
  claim_C2_construct_reset.2.2.2.1 _ (by decide)

/-! ## Claims C3 and C10: draw_cards -/

/-- C3: for a non-negative count `n`, `draw_cards n` returns exactly `n` cards
and shrinks the deck by `n` when `n` is at most the remaining count; when `n`
exceeds the remaining count it returns exactly the old remaining count of
cards and empties the deck; and in all cases the returned sequence is the
drawn cards in draw order — the reversed tail of the sequence, position 0
being the card that was last in the deck. The embedding is a total function:
no exception is possible. -/
theorem claim_C3_draw_cards (d : TarotDeck) (n : Int) (hn : 0 ≤ n) :
    (n ≤ (d.remaining_cards : Int) →
      ((d.draw_cards n).1.length : Int) = n ∧
      ((d.draw_cards n).2.remaining_cards : Int) = (d.remaining_cards : Int) - n) ∧
    ((d.remaining_cards : Int) < n →
      (d.draw_cards n).1.length = d.remaining_cards ∧
      (d.draw_cards n).2.remaining_cards = 0) ∧
    (d.draw_cards n).1 = d.cards.reverse.take (min n (d.remaining_cards : Int)).toNat := by
  have h1 := draw_cards_fst_length d n
  have h2 := draw_cards_snd_length d n
  simp only [TarotDeck.remaining_cards] at *
  refine ⟨fun hle => ⟨by omega, by omega⟩, fun hgt => ⟨by omega, by omega⟩, ?_⟩
  rw [draw_cards_spec]

/-- Witness for C3: drawing 3 cards from a freshly constructed deck yields
exactly 3 cards and leaves 75. -/
theorem claim_C3_witness :
    ((TarotDeck.construct.draw_cards 3).1.length : Int) = 3 ∧
    ((TarotDeck.construct.draw_cards 3).2.remaining_cards : Int) =
      (TarotDeck.construct.remaining_cards : Int) - 3 :=
  (claim_C3_draw_cards TarotDeck.construct 3 (by decide)).1 (by decide)

/-- C10: for a non-positive count, `draw_cards` returns the empty sequence
and leaves the deck entirely unchanged (`min(count, len) = count ≤ 0`, so the
Python loop body never runs). -/
theorem claim_C10_draw_cards_nonpositive (d : TarotDeck) (n : Int) (hn : n ≤ 0) :
    d.draw_cards n = ([], d) := by
  have h0 : (min n (d.cards.length : Int)).toNat = 0 := by omega
  rw [TarotDeck.draw_cards, h0]
  rfl

/-- Witness for C10: drawing -5 cards from a fresh deck returns nothing and
keeps the deck as it was. -/
theorem claim_C10_witness :
    TarotDeck.construct.draw_cards (-5) = ([], TarotDeck.construct) :=
  claim_C10_draw_cards_nonpositive TarotDeck.construct (-5) (by decide)

/-! ## Claim C5: shuffle is a permutation -/

/-- C5: whatever permutation and coin tosses the random generator produces,
shuffling permutes the current sequence: the multiset of cards identified by
name and description is unchanged, the remaining count is unchanged, and no
card is added or removed (only order and orientation may differ). -/
theorem claim_C5_shuffle_perm (d : TarotDeck) (perm : List TarotCard)
    (h : d.cards.Perm perm) (flips : Nat → Bool) :
    ((d.shuffle perm h flips).cards.map card_key).Perm (d.cards.map card_key) ∧
    (d.shuffle perm h flips).remaining_cards = d.remaining_cards := by
  constructor
  · rw [TarotDeck.shuffle]
    show ((flip_pass flips 0 perm).map card_key).Perm _
    rw [flip_pass_map_key]
    exact (h.map card_key).symm
  · exact shuffle_cards_length d perm h flips

/-- Witness for C5: the identity permutation with no flips on a fresh deck. -/
theorem claim_C5_witness :
    ((TarotDeck.construct.shuffle create_deck (List.Perm.refl _)
        (fun _ => false)).cards.map card_key).Perm
      (TarotDeck.construct.cards.map card_key) ∧
    (TarotDeck.construct.shuffle create_deck (List.Perm.refl _)
        (fun _ => false)).remaining_cards = TarotDeck.construct.remaining_cards :=
  claim_C5_shuffle_perm TarotDeck.construct create_deck (List.Perm.refl _) (fun _ => false)

/-! ## Branch lemmas for the reading operations -/

/-- Reduction of `single_card_reading` when the shuffled deck yields no card. -/
theorem single_card_reading_none (s : TarotReading) (perm : List TarotCard)
    (h : s.deck.cards.Perm perm) (flips : Nat → Bool) (dd : TarotDeck)
    (hdc : (s.deck.shuffle perm h flips).draw_card = (none, dd)) :
    s.single_card_reading perm h flips =
      (ReadingResult.err "No cards available", { s with deck := dd }) := by
  rw [TarotReading.single_card_reading, hdc]

/-- Reduction of `single_card_reading` when the shuffled deck yields a card. -/
theorem single_card_reading_some (s : TarotReading) (perm : List TarotCard)
    (h : s.deck.cards.Perm perm) (flips : Nat → Bool) (c : TarotCard) (dd : TarotDeck)
    (hdc : (s.deck.shuffle perm h flips).draw_card = (some c, dd)) :
    s.single_card_reading perm h flips =
      (ReadingResult.ok "Single Card" [c.to_dict] ("Today's guidance: " ++ c.get_meaning),
       { deck := dd,
         readings_history := s.readings_history ++
           [ReadingResult.ok "Single Card" [c.to_dict]
             ("Today's guidance: " ++ c.get_meaning)] }) := by
  rw [TarotReading.single_card_reading, hdc]

/-- Reduction of `three_card_reading` when fewer than 3 cards came back. -/
theorem three_card_reading_err (s : TarotReading) (perm : List TarotCard)
    (h : s.deck.cards.Perm perm) (flips : Nat → Bool)
    (hlt : ((s.deck.shuffle perm h flips).draw_cards 3).1.length < 3) :
    s.three_card_reading perm h flips =
      (ReadingResult.err "Not enough cards available",
       { s with deck := ((s.deck.shuffle perm h flips).draw_cards 3).2 }) := by
  rw [TarotReading.three_card_reading, if_pos hlt]

/-- Reduction of `three_card_reading` when 3 cards came back. -/
theorem three_card_reading_ok (s : TarotReading) (perm : List TarotCard)
    (h : s.deck.cards.Perm perm) (flips : Nat → Bool)
    (hge : ¬ ((s.deck.shuffle perm h flips).draw_cards 3).1.length < 3) :
    s.three_card_reading perm h flips =
      (ReadingResult.ok "Three Card (Past, Present, Future)"
         (((s.deck.shuffle perm h flips).draw_cards 3).1.map TarotCard.to_dict)
         (String.intercalate "\n"
           (interp_lines three_positions ((s.deck.shuffle perm h flips).draw_cards 3).1)),
       { deck := ((s.deck.shuffle perm h flips).draw_cards 3).2,
         readings_history := s.readings_history ++
           [ReadingResult.ok "Three Card (Past, Present, Future)"
             (((s.deck.shuffle perm h flips).draw_cards 3).1.map TarotCard.to_dict)
             (String.intercalate "\n"
               (interp_lines three_positions
                 ((s.deck.shuffle perm h flips).draw_cards 3).1))] }) := by
  rw [TarotReading.three_card_reading, if_neg hge]

/-- Reduction of `celtic_cross_reading` when fewer than 10 cards came back. -/
theorem celtic_cross_reading_err (s : TarotReading) (perm : List TarotCard)
    (h : s.deck.cards.Perm perm) (flips : Nat → Bool)
    (hlt : ((s.deck.shuffle perm h flips).draw_cards 10).1.length < 10) :
    s.celtic_cross_reading perm h flips =
      (ReadingResult.err "Not enough cards for Celtic Cross reading",
       { s with deck := ((s.deck.shuffle perm h flips).draw_cards 10).2 }) := by
  rw [TarotReading.celtic_cross_reading, if_pos hlt]

/-- Reduction of `celtic_cross_reading` when 10 cards came back. -/
theorem celtic_cross_reading_ok (s : TarotReading) (perm : List TarotCard)
    (h : s.deck.cards.Perm perm) (flips : Nat → Bool)
    (hge : ¬ ((s.deck.shuffle perm h flips).draw_cards 10).1.length < 10) :
    s.celtic_cross_reading perm h flips =
      (ReadingResult.ok "Celtic Cross"
         (((s.deck.shuffle perm h flips).draw_cards 10).1.map TarotCard.to_dict)
         (String.intercalate "\n"
           (interp_lines celtic_positions ((s.deck.shuffle perm h flips).draw_cards 10).1)),
       { deck := ((s.deck.shuffle perm h flips).draw_cards 10).2,
         readings_history := s.readings_history ++
           [ReadingResult.ok "Celtic Cross"
             (((s.deck.shuffle perm h flips).draw_cards 10).1.map TarotCard.to_dict)
             (String.intercalate "\n"
               (interp_lines celtic_positions
                 ((s.deck.shuffle perm h flips).draw_cards 10).1))] }) := by
  rw [TarotReading.celtic_cross_reading, if_neg hge]

/-! ## Claim C1: insufficient-cards error messages -/

/-- C1 (amended): whenever fewer cards than the operation's required count can
be drawn, each reading operation returns an error result value rather than
raising: `celtic_cross_reading` with the message
`"Not enough cards for Celtic Cross reading"`, `three_card_reading` with
`"Not enough cards available"`, and `single_card_reading` with
`"No cards available"` (not `"Not enough cards available"` as claimed). -/
theorem claim_C1_error_messages (s : TarotReading) (perm : List TarotCard)
    (h : s.deck.cards.Perm perm) (flips : Nat → Bool) :
    (s.deck.remaining_cards = 0 →
      (s.single_card_reading perm h flips).1 = ReadingResult.err "No cards available") ∧
    (s.deck.remaining_cards < 3 →
      (s.three_card_reading perm h flips).1 = ReadingResult.err "Not enough cards available") ∧
    (s.deck.remaining_cards < 10 →
      (s.celtic_cross_reading perm h flips).1 =
        ReadingResult.err "Not enough cards for Celtic Cross reading") := by
  have hsl := shuffle_cards_length s.deck perm h flips
  refine ⟨fun h0 => ?_, fun h3 => ?_, fun h10 => ?_⟩
  · have hnil : (s.deck.shuffle perm h flips).cards = [] := by
      have : (s.deck.shuffle perm h flips).cards.length = 0 := by
        rw [hsl]; exact h0
      exact List.length_eq_zero.mp this
    have hdc : (s.deck.shuffle perm h flips).draw_card =
        (none, s.deck.shuffle perm h flips) := by
      rw [TarotDeck.draw_card, hnil]; rfl
    rw [single_card_reading_none s perm h flips _ hdc]
  · have hf := draw_cards_fst_length (s.deck.shuffle perm h flips) 3
    have hlt : ((s.deck.shuffle perm h flips).draw_cards 3).1.length < 3 := by
      simp only [TarotDeck.remaining_cards] at h3
      omega
    rw [three_card_reading_err s perm h flips hlt]
  · have hf := draw_cards_fst_length (s.deck.shuffle perm h flips) 10
    have hlt : ((s.deck.shuffle perm h flips).draw_cards 10).1.length < 10 := by
      simp only [TarotDeck.remaining_cards] at h10
      omega
    rw [celtic_cross_reading_err s perm h flips hlt]

/-- Counterexample to C1 as stated: on an emptied deck, `single_card_reading`
returns the error message `"No cards available"`, which is not the claimed
literal `"Not enough cards available"`. -/
theorem claim_C1_counterexample :
    (TarotReading.single_card_reading ⟨⟨[]⟩, []⟩ [] (List.Perm.refl _) (fun _ => false)).1 =
      ReadingResult.err "No cards available" ∧
    (TarotReading.single_card_reading ⟨⟨[]⟩, []⟩ [] (List.Perm.refl _) (fun _ => false)).1 ≠
      ReadingResult.err "Not enough cards available" := by
  decide

/-- Witness for C1: a session with only 2 cards left gets the
`"Not enough cards available"` error from `three_card_reading`. -/
theorem claim_C1_witness :
    (TarotReading.three_card_reading ⟨⟨create_deck.take 2⟩, []⟩ (create_deck.take 2)
        (List.Perm.refl _) (fun _ => false)).1 =
      ReadingResult.err "Not enough cards available" :=
  (claim_C1_error_messages ⟨⟨create_deck.take 2⟩, []⟩ (create_deck.take 2)
    (List.Perm.refl _) (fun _ => false)).2.1 (by decide)

/-! ## Claim C9: a failed multi-card reading still drains the deck -/

/-- C9: a call to `three_card_reading` (resp. `celtic_cross_reading`) on a
deck holding at least one but fewer than the required count of cards returns
the insufficient-cards error, yet has shuffled the deck and drawn every
remaining card out: afterwards `remaining_cards()` is 0 and the partially
drawn cards are not returned to the deck. -/
theorem claim_C9_failed_reading_drains_deck (s : TarotReading) (perm : List TarotCard)
    (h : s.deck.cards.Perm perm) (flips : Nat → Bool) :
    (1 ≤ s.deck.remaining_cards → s.deck.remaining_cards < 3 →
      (s.three_card_reading perm h flips).1 = ReadingResult.err "Not enough cards available" ∧
      (s.three_card_reading perm h flips).2.deck.remaining_cards = 0) ∧
    (1 ≤ s.deck.remaining_cards → s.deck.remaining_cards < 10 →
      (s.celtic_cross_reading perm h flips).1 =
        ReadingResult.err "Not enough cards for Celtic Cross reading" ∧
      (s.celtic_cross_reading perm h flips).2.deck.remaining_cards = 0) := by
  have hsl := shuffle_cards_length s.deck perm h flips
  simp only [TarotDeck.remaining_cards]
  constructor
  · intro h1 h3
    have hf := draw_cards_fst_length (s.deck.shuffle perm h flips) 3
    have hs := draw_cards_snd_length (s.deck.shuffle perm h flips) 3
    have hlt : ((s.deck.shuffle perm h flips).draw_cards 3).1.length < 3 := by omega
    rw [three_card_reading_err s perm h flips hlt]
    refine ⟨rfl, ?_⟩
    show ((s.deck.shuffle perm h flips).draw_cards 3).2.cards.length = 0
    omega
  · intro h1 h10
    have hf := draw_cards_fst_length (s.deck.shuffle perm h flips) 10
    have hs := draw_cards_snd_length (s.deck.shuffle perm h flips) 10
    have hlt : ((s.deck.shuffle perm h flips).draw_cards 10).1.length < 10 := by omega
    rw [celtic_cross_reading_err s perm h flips hlt]
    refine ⟨rfl, ?_⟩
    show ((s.deck.shuffle perm h flips).draw_cards 10).2.cards.length = 0
    omega

/-- Witness for C9: a 2-card session, after the failing `three_card_reading`,
is left with an empty deck. -/
theorem claim_C9_witness :
    (TarotReading.three_card_reading ⟨⟨create_deck.take 2⟩, []⟩ (create_deck.take 2)
        (List.Perm.refl _) (fun _ => false)).1 =
      ReadingResult.err "Not enough cards available" ∧
    (TarotReading.three_card_reading ⟨⟨create_deck.take 2⟩, []⟩ (create_deck.take 2)
        (List.Perm.refl _) (fun _ => false)).2.deck.remaining_cards = 0 :=
  (claim_C9_failed_reading_drains_deck ⟨⟨create_deck.take 2⟩, []⟩ (create_deck.take 2)
    (List.Perm.refl _) (fun _ => false)).1 (by decide) (by decide)

/-! ## Claim C4: history discipline -/

/-- C4: an error result is never appended to the session history (the history
is left unchanged), a successful result is appended as exactly one new
element, and in particular `celtic_cross_reading` on a session whose deck has
been pre-drawn down to 5 remaining cards returns the Celtic Cross error and
leaves the history length unchanged. -/
theorem claim_C4_history (s : TarotReading) (perm : List TarotCard)
    (h : s.deck.cards.Perm perm) (flips : Nat → Bool) :
    ((∃ m, (s.single_card_reading perm h flips).1 = ReadingResult.err m) →
      (s.single_card_reading perm h flips).2.readings_history = s.readings_history) ∧
    ((∃ t cds i, (s.single_card_reading perm h flips).1 = ReadingResult.ok t cds i) →
      (s.single_card_reading perm h flips).2.readings_history =
        s.readings_history ++ [(s.single_card_reading perm h flips).1]) ∧
    ((∃ m, (s.three_card_reading perm h flips).1 = ReadingResult.err m) →
      (s.three_card_reading perm h flips).2.readings_history = s.readings_history) ∧
    ((∃ t cds i, (s.three_card_reading perm h flips).1 = ReadingResult.ok t cds i) →
      (s.three_card_reading perm h flips).2.readings_history =
        s.readings_history ++ [(s.three_card_reading perm h flips).1]) ∧
    ((∃ m, (s.celtic_cross_reading perm h flips).1 = ReadingResult.err m) →
      (s.celtic_cross_reading perm h flips).2.readings_history = s.readings_history) ∧
    ((∃ t cds i, (s.celtic_cross_reading perm h flips).1 = ReadingResult.ok t cds i) →
      (s.celtic_cross_reading perm h flips).2.readings_history =
        s.readings_history ++ [(s.celtic_cross_reading perm h flips).1]) ∧
    (s.deck.remaining_cards = 5 →
      (s.celtic_cross_reading perm h flips).1 =
        ReadingResult.err "Not enough cards for Celtic Cross reading" ∧
      (s.celtic_cross_reading perm h flips).2.readings_history = s.readings_history) := by
  refine ⟨?_, ?_, ?_, ?_, ?_, ?_, ?_⟩
  · rintro ⟨m, hm⟩
    rcases hdc : (s.deck.shuffle perm h flips).draw_card with ⟨c?, dd⟩
    cases c? with
    | none => rw [single_card_reading_none s perm h flips dd hdc]
    | some c =>
      rw [single_card_reading_some s perm h flips c dd hdc] at hm
      simp at hm
  · rintro ⟨t, cds, i, hok⟩
    rcases hdc : (s.deck.shuffle perm h flips).draw_card with ⟨c?, dd⟩
    cases c? with
    | none =>
      rw [single_card_reading_none s perm h flips dd hdc] at hok
      simp at hok
    | some c => rw [single_card_reading_some s perm h flips c dd hdc]
  · rintro ⟨m, hm⟩
    by_cases hc : ((s.deck.shuffle perm h flips).draw_cards 3).1.length < 3
    · rw [three_card_reading_err s perm h flips hc]
    · rw [three_card_reading_ok s perm h flips hc] at hm
      simp at hm
  · rintro ⟨t, cds, i, hok⟩
    by_cases hc : ((s.deck.shuffle perm h flips).draw_cards 3).1.length < 3
    · rw [three_card_reading_err s perm h flips hc] at hok
      simp at hok
    · rw [three_card_reading_ok s perm h flips hc]
  · rintro ⟨m, hm⟩
    by_cases hc : ((s.deck.shuffle perm h flips).draw_cards 10).1.length < 10
    · rw [celtic_cross_reading_err s perm h flips hc]
    · rw [celtic_cross_reading_ok s perm h flips hc] at hm
      simp at hm
  · rintro ⟨t, cds, i, hok⟩
    by_cases hc : ((s.deck.shuffle perm h flips).draw_cards 10).1.length < 10
    · rw [celtic_cross_reading_err s perm h flips hc] at hok
      simp at hok
    · rw [celtic_cross_reading_ok s perm h flips hc]
  · intro h5
    have hsl := shuffle_cards_length s.deck perm h flips
    have hf := draw_cards_fst_length (s.deck.shuffle perm h flips) 10
    have hlt : ((s.deck.shuffle perm h flips).draw_cards 10).1.length < 10 := by
      simp only [TarotDeck.remaining_cards] at h5
      omega
    rw [celtic_cross_reading_err s perm h flips hlt]
    exact ⟨rfl, rfl⟩

/-- Witness for C4: a session pre-drawn down to 5 cards, calling the Celtic
Cross reading: the error result comes back and the history stays empty. -/
theorem claim_C4_witness :
    (TarotReading.celtic_cross_reading ⟨⟨create_deck.take 5⟩, []⟩ (create_deck.take 5)
        (List.Perm.refl _) (fun _ => false)).1 =
      ReadingResult.err "Not enough cards for Celtic Cross reading" ∧
    (TarotReading.celtic_cross_reading ⟨⟨create_deck.take 5⟩, []⟩ (create_deck.take 5)
        (List.Perm.refl _) (fun _ => false)).2.readings_history =
      (⟨⟨create_deck.take 5⟩, []⟩ : TarotReading).readings_history :=
  (claim_C4_history ⟨⟨create_deck.take 5⟩, []⟩ (create_deck.take 5)
    (List.Perm.refl _) (fun _ => false)).2.2.2.2.2.2 (by decide)

/-! ## Claim C6: the three-card interpretation string -/

/-- Joining three strings with a newline, spelled out. -/
theorem intercalate3 (a b c : String) :
    String.intercalate "\n" [a, b, c] = a ++ "\n" ++ b ++ "\n" ++ c := by
  simp [String.intercalate, String.intercalate.go]

/-- The three position lines of a three-card reading, joined by newline. -/
theorem three_lines_concat (m1 m2 m3 : String) :
    String.intercalate "\n"
      ["Past" ++ ": " ++ m1, "Present" ++ ": " ++ m2, "Future" ++ ": " ++ m3] =
    "Past: " ++ m1 ++ "\n" ++ "Present: " ++ m2 ++ "\n" ++ "Future: " ++ m3 := by
  rw [intercalate3]
  apply String.ext
  simp [String.data_append, List.append_assoc]

/-- The joined interpretation exhibits `"Past:"`, `"Present:"`, `"Future:"`
as substrings in that order. -/
theorem contains_in_order (m1 m2 m3 : String) :
    ∃ q1 q2 q3 : String,
      "Past: " ++ m1 ++ "\n" ++ "Present: " ++ m2 ++ "\n" ++ "Future: " ++ m3 =
      "Past:" ++ q1 ++ "Present:" ++ q2 ++ "Future:" ++ q3 := by
  refine ⟨" " ++ m1 ++ "\n", " " ++ m2 ++ "\n", " " ++ m3, ?_⟩
  apply String.ext
  simp [String.data_append, List.append_assoc]

/-- C6: a successful `three_card_reading` whose shuffled deck yielded the
cards `c1, c2, c3` (in draw order) has as interpretation exactly the three
lines `position: meaning` for Past, Present, Future zipped with the drawn
cards, joined by newline; the rendering of a card's meaning is the reversed
or upright format of `get_meaning`; and consequently the interpretation
contains `"Past:"`, `"Present:"`, `"Future:"` as substrings in that order. -/
theorem claim_C6_three_card_interpretation (s : TarotReading) (perm : List TarotCard)
    (h : s.deck.cards.Perm perm) (flips : Nat → Bool)
    (c1 c2 c3 : TarotCard) (d2 : TarotDeck)
    (hdraw : (s.deck.shuffle perm h flips).draw_cards 3 = ([c1, c2, c3], d2)) :
    (s.three_card_reading perm h flips).1 =
      ReadingResult.ok "Three Card (Past, Present, Future)"
        [c1.to_dict, c2.to_dict, c3.to_dict]
        ("Past: " ++ c1.get_meaning ++ "\n" ++ "Present: " ++ c2.get_meaning ++
         "\n" ++ "Future: " ++ c3.get_meaning) ∧
    (∀ c : TarotCard, c.get_meaning =
      if c.reversed then
        c.name ++ " (Reversed): " ++ c.description ++
          " - Consider the opposite or blocked energy."
      else c.name ++ ": " ++ c.description) ∧
    (∃ q1 q2 q3 : String,
      "Past: " ++ c1.get_meaning ++ "\n" ++ "Present: " ++ c2.get_meaning ++
        "\n" ++ "Future: " ++ c3.get_meaning =
      "Past:" ++ q1 ++ "Present:" ++ q2 ++ "Future:" ++ q3) := by
  have hge : ¬ ((s.deck.shuffle perm h flips).draw_cards 3).1.length < 3 := by
    rw [hdraw]; simp
  have heq := three_card_reading_ok s perm h flips hge
  rw [hdraw] at heq
  refine ⟨?_, fun c => rfl, contains_in_order _ _ _⟩
  have h1 : (s.three_card_reading perm h flips).1 =
      ReadingResult.ok "Three Card (Past, Present, Future)"
        ([c1, c2, c3].map TarotCard.to_dict)
        (String.intercalate "\n" (interp_lines three_positions [c1, c2, c3])) := by
    rw [heq]
  rw [h1]
  simp only [List.map_cons, List.map_nil, interp_lines, three_positions, List.zipWith]
  rw [three_lines_concat]

/-- Witness for C6: the fresh session with the identity shuffle and no flips
draws the last three cards of the canonical deck. -/
theorem claim_C6_witness :
    (TarotReading.construct.three_card_reading create_deck (List.Perm.refl _)
        (fun _ => false)).1 =
      ReadingResult.ok "Three Card (Past, Present, Future)"
        [(court_card "Pentacles" "King").to_dict,
         (court_card "Pentacles" "Queen").to_dict,
         (court_card "Pentacles" "Knight").to_dict]
        ("Past: " ++ (court_card "Pentacles" "King").get_meaning ++ "\n" ++
         "Present: " ++ (court_card "Pentacles" "Queen").get_meaning ++ "\n" ++
         "Future: " ++ (court_card "Pentacles" "Knight").get_meaning) :=
  (claim_C6_three_card_interpretation TarotReading.construct create_deck
    (List.Perm.refl _) (fun _ => false)
    (court_card "Pentacles" "King") (court_card "Pentacles" "Queen")
    (court_card "Pentacles" "Knight") ⟨create_deck.take 75⟩ (by decide)).1

/-! ## Claim C8: from_dict validation and defaults -/

/-- C8: `from_dict` fails (with the MalformedSnapshot error, the `KeyError` of
the missing required key) exactly when the key name or the key description is
absent from the input mapping; when both are present it succeeds with a card
taking name and description from the mapping, `image_file` defaulting to
`none` and `reversed` defaulting to `false` when those keys are absent, and
otherwise taking all four field values from the mapping. -/
theorem claim_C8_from_dict (data : CardData) :
    ((∃ e, TarotCard.from_dict data = Except.error e) ↔
      (data.name = none ∨ data.description = none)) ∧
    (∀ n d, data.name = some n → data.description = some d →
      TarotCard.from_dict data = Except.ok
        { name := n, description := d,
          image_file := data.image_file.getD none,
          reversed := data.reversed.getD false }) := by
  rcases data with ⟨nm, ds, im, rv⟩
  constructor
  · cases nm <;> cases ds <;> simp [TarotCard.from_dict]
  · intro n d hn hd
    cases nm <;> cases ds <;> simp_all [TarotCard.from_dict]

/-- Witness for C8: a mapping with both required keys and no optional keys
yields the card with the default image and orientation. -/
theorem claim_C8_witness :
    TarotCard.from_dict ⟨some "A", some "B", none, none⟩ =
      Except.ok { name := "A", description := "B", image_file := none, reversed := false } :=
  (claim_C8_from_dict ⟨some "A", some "B", none, none⟩).2 "A" "B" rfl rfl

/-! ## The JSON persistence layer (claim C7) -/

/-- JSON values of the fragment `json.dump` emits for reading results:
strings, booleans, null, arrays and objects (an object keeps its members in
insertion order, as a Python dict does). -/
inductive Json where
  | null : Json
  | bool (b : Bool) : Json
  | str (s : String) : Json
  | arr (items : List Json) : Json
  | obj (members : List (String × Json)) : Json
deriving Repr

/-- Escaping of one character inside a JSON string literal: the double
quote, the backslash and the newline (the only control character occurring
in reading texts) are escaped, every other character is emitted verbatim. -/
def escChar (c : Char) : List Char :=
  if c = '"' then ['\\', '"']
  else if c = '\\' then ['\\', '\\']
  else if c = '\n' then ['\\', 'n']
  else [c]

/-- Escaped body of a JSON string literal. -/
def encStringChars : List Char → List Char
  | [] => []
  | c :: cs => escChar c ++ encStringChars cs

mutual
/-- Text of one JSON value, in compact form: the serialization `json.dump`
performs modulo the indent-2 whitespace, which carries no data and is
dropped here. -/
def dumpJson : Json → List Char
  | .null => "null".data
  | .bool true => "true".data
  | .bool false => "false".data
  | .str s => '"' :: encStringChars s.data ++ ['"']
  | .arr items => '[' :: dumpItems items ++ [']']
  | .obj members => '\x7b' :: dumpMembers members ++ ['\x7d']
/-- Comma-separated texts of an array's items. -/
def dumpItems : List Json → List Char
  | [] => []
  | v :: rest => dumpJson v ++ (if rest.isEmpty then [] else [',']) ++ dumpItems rest
/-- Comma-separated texts of an object's members. -/
def dumpMembers : List (String × Json) → List Char
  | [] => []
  | (k, v) :: rest =>
    '"' :: encStringChars k.data ++ ['"'] ++ (':' :: dumpJson v) ++
      (if rest.isEmpty then [] else [',']) ++ dumpMembers rest
end

/-- Parser for the body of a JSON string literal, after the opening quote:
returns the decoded characters and the input after the closing quote. -/
def parseStringBody : List Char → Option (List Char × List Char)
  | [] => none
  | c :: rest =>
    if c = '"' then some ([], rest)
    else if c = '\\' then
      match rest with
      | [] => none
      | e :: rest2 =>
        match (if e = '"' then some '"' else if e = '\\' then some '\\'
               else if e = 'n' then some '\n' else none) with
        | none => none
        | some dch =>
          match parseStringBody rest2 with
          | some (sres, r) => some (dch :: sres, r)
          | none => none
    else
      match parseStringBody rest with
      | some (sres, r) => some (c :: sres, r)
      | none => none

mutual
/-- Parse one JSON value, as `json.load` does on this fragment, fuelled to
make the recursion structural: returns the value and the remaining input,
or `none` on malformed input. -/
def parseJson : Nat → List Char → Option (Json × List Char)
  | 0, _ => none
  | _ + 1, [] => none
  | fuel + 1, c :: rest =>
    if c = 'n' then
      if rest.take 3 = ['u', 'l', 'l'] then some (.null, rest.drop 3) else none
    else if c = 't' then
      if rest.take 3 = ['r', 'u', 'e'] then some (.bool true, rest.drop 3) else none
    else if c = 'f' then
      if rest.take 4 = ['a', 'l', 's', 'e'] then some (.bool false, rest.drop 4) else none
    else if c = '"' then
      match parseStringBody rest with
      | some (sres, r) => some (.str ⟨sres⟩, r)
      | none => none
    else if c = '[' then
      if rest.head? = some ']' then some (.arr [], rest.tail)
      else
        match parseItems fuel rest with
        | some (items, r) => some (.arr items, r)
        | none => none
    else if c = '\x7b' then
      if rest.head? = some '\x7d' then some (.obj [], rest.tail)
      else
        match parseMembers fuel rest with
        | some (members, r) => some (.obj members, r)
        | none => none
    else none
/-- Parse the comma-separated items of a non-empty array, up to and
including the closing bracket. -/
def parseItems : Nat → List Char → Option (List Json × List Char)
  | 0, _ => none
  | fuel + 1, input =>
    match parseJson fuel input with
    | none => none
    | some (v, r1) =>
      match r1 with
      | [] => none
      | c :: r2 =>
        if c = ',' then
          match parseItems fuel r2 with
          | some (items, r) => some (v :: items, r)
          | none => none
        else if c = ']' then some ([v], r2)
        else none
/-- Parse the comma-separated members of a non-empty object, up to and
including the closing brace. -/
def parseMembers : Nat → List Char → Option (List (String × Json) × List Char)
  | 0, _ => none
  | fuel + 1, input =>
    match input with
    | [] => none
    | c :: rest =>
      if c = '"' then
        match parseStringBody rest with
        | none => none
        | some (kres, r1) =>
          match r1 with
          | [] => none
          | c2 :: r2 =>
            if c2 = ':' then
              match parseJson fuel r2 with
              | none => none
              | some (v, r3) =>
                match r3 with
                | [] => none
                | c3 :: r4 =>
                  if c3 = ',' then
                    match parseMembers fuel r4 with
                    | some (members, r) => some ((⟨kres⟩, v) :: members, r)
                    | none => none
                  else if c3 = '\x7d' then some ([(⟨kres⟩, v)], r4)
                  else none
            else none
      else none
end

mutual
/-- Fuel measure of a JSON value: enough fuel for `parseJson` to traverse
it. -/
def jsize : Json → Nat
  | .null => 1
  | .bool _ => 1
  | .str _ => 1
  | .arr items => 1 + lsize items
  | .obj members => 1 + msize members
/-- Fuel measure of an array's items. -/
def lsize : List Json → Nat
  | [] => 0
  | v :: rest => 1 + jsize v + lsize rest
/-- Fuel measure of an object's members. -/
def msize : List (String × Json) → Nat
  | [] => 0
  | (_, v) :: rest => 1 + jsize v + msize rest
end

/-- The serialized JSON text of a value, as a string. -/
def json_dumps (v : Json) : String := ⟨dumpJson v⟩

/-- Parse a complete JSON text: the whole input must be consumed. -/
def json_loads (s : String) : Option Json :=
  match parseJson (s.length + 1) s.data with
  | some (v, []) => some v
  | _ => none

/-- Round trip for string bodies: parsing the escaped text restores the
original characters and leaves the trailing input. -/
theorem parseStringBody_enc (s : List Char) : ∀ rest : List Char,
    parseStringBody (encStringChars s ++ '"' :: rest) = some (s, rest) := by
  induction s with
  | nil =>
    intro rest
    rw [encStringChars, List.nil_append, parseStringBody.eq_def]
    simp
  | cons c cs ih =>
    intro rest
    rw [encStringChars, List.append_assoc]
    by_cases h1 : c = '"'
    · subst h1
      rw [show escChar '"' = ['\\', '"'] from rfl]
      simp only [List.cons_append, List.nil_append]
      have step : parseStringBody ('\\' :: '"' :: (encStringChars cs ++ '"' :: rest)) =
          (match parseStringBody (encStringChars cs ++ '"' :: rest) with
           | some (sres, r) => some ('"' :: sres, r)
           | none => none) := rfl
      rw [step, ih]
    · by_cases h2 : c = '\\'
      · subst h2
        rw [show escChar '\\' = ['\\', '\\'] from rfl]
        simp only [List.cons_append, List.nil_append]
        have step : parseStringBody ('\\' :: '\\' :: (encStringChars cs ++ '"' :: rest)) =
            (match parseStringBody (encStringChars cs ++ '"' :: rest) with
             | some (sres, r) => some ('\\' :: sres, r)
             | none => none) := rfl
        rw [step, ih]
      · by_cases h3 : c = '\n'
        · subst h3
          rw [show escChar '\n' = ['\\', 'n'] from rfl]
          simp only [List.cons_append, List.nil_append]
          have step : parseStringBody ('\\' :: 'n' :: (encStringChars cs ++ '"' :: rest)) =
              (match parseStringBody (encStringChars cs ++ '"' :: rest) with
               | some (sres, r) => some ('\n' :: sres, r)
               | none => none) := rfl
          rw [step, ih]
        · rw [show escChar c = [c] from by simp [escChar, h1, h2, h3]]
          simp only [List.cons_append, List.nil_append]
          rw [parseStringBody.eq_def]
          simp only [h1, h2, if_false]
          rw [ih]

/-- Rebuilding a string from its characters is the identity. -/
theorem string_mk_data (s : String) : String.mk s.data = s := rfl

/-- Every JSON value needs at least one unit of fuel. -/
theorem jsize_pos (v : Json) : 1 ≤ jsize v := by
  cases v <;> simp [jsize]

mutual
/-- The fuel measure of a value is bounded by the length of its JSON text,
so parsing with fuel text-length + 1 always suffices. -/
def jsize_le_dump : ∀ v : Json, jsize v ≤ (dumpJson v).length
  | .null => by simp [jsize, dumpJson]
  | .bool b => by cases b <;> simp [jsize, dumpJson]
  | .str s => by simp [jsize, dumpJson]
  | .arr items => by
      have h := lsize_le_items items
      simp [jsize, dumpJson]
      omega
  | .obj members => by
      have h := msize_le_members members
      simp [jsize, dumpJson]
      omega
/-- Fuel bound for an array's items. -/
def lsize_le_items : ∀ items : List Json, lsize items ≤ (dumpItems items).length + 1
  | [] => by simp [lsize, dumpItems]
  | v :: rest => by
      have h1 := jsize_le_dump v
      have h2 := lsize_le_items rest
      cases rest with
      | nil => simp [lsize, dumpItems]; omega
      | cons y ys =>
        simp [lsize, dumpItems] at h2 ⊢
        omega
/-- Fuel bound for an object's members. -/
def msize_le_members : ∀ ms : List (String × Json), msize ms ≤ (dumpMembers ms).length + 1
  | [] => by simp [msize, dumpMembers]
  | (k, v) :: rest => by
      have h1 := jsize_le_dump v
      have h2 := msize_le_members rest
      cases rest with
      | nil => simp [msize, dumpMembers]; omega
      | cons p ps =>
        simp [msize, dumpMembers] at h2 ⊢
        omega
end

/-- The JSON text of a value is non-empty and never starts with a closing
bracket or brace. -/
theorem dump_head (v : Json) : ∃ c0 cs0, dumpJson v = c0 :: cs0 ∧ c0 ≠ ']' ∧ c0 ≠ '\x7d' := by
  cases v with
  | null => exact ⟨'n', ['u', 'l', 'l'], by simp [dumpJson], by decide, by decide⟩
  | bool b =>
    cases b
    · exact ⟨'f', ['a', 'l', 's', 'e'], by simp [dumpJson], by decide, by decide⟩
    · exact ⟨'t', ['r', 'u', 'e'], by simp [dumpJson], by decide, by decide⟩
  | str s =>
    exact ⟨'"', encStringChars s.data ++ ['"'], by simp [dumpJson], by decide, by decide⟩
  | arr items =>
    exact ⟨'[', dumpItems items ++ [']'], by simp [dumpJson], by decide, by decide⟩
  | obj members =>
    exact ⟨'\x7b', dumpMembers members ++ ['\x7d'], by simp [dumpJson], by decide, by decide⟩

/-- Round trip of the parser against the serializer, with enough fuel: a
value's JSON text parses back to the value, leaving any trailing input. -/
theorem parse_dump : ∀ fuel : Nat,
    (∀ (v : Json) (rest : List Char), jsize v ≤ fuel →
      parseJson fuel (dumpJson v ++ rest) = some (v, rest)) ∧
    (∀ (items : List Json) (rest : List Char), items ≠ [] → lsize items ≤ fuel →
      parseItems fuel (dumpItems items ++ ']' :: rest) = some (items, rest)) ∧
    (∀ (ms : List (String × Json)) (rest : List Char), ms ≠ [] → msize ms ≤ fuel →
      parseMembers fuel (dumpMembers ms ++ '\x7d' :: rest) = some (ms, rest)) := by
  intro fuel
  induction fuel with
  | zero =>
    refine ⟨fun v rest hv => ?_, fun items rest hne hl => ?_, fun ms rest hne hl => ?_⟩
    · have := jsize_pos v; omega
    · cases items with
      | nil => exact absurd rfl hne
      | cons a b => simp [lsize] at hl
    · cases ms with
      | nil => exact absurd rfl hne
      | cons a b =>
        obtain ⟨k, v⟩ := a
        simp [msize] at hl
  | succ fuel ih =>
    obtain ⟨ihJ, ihI, ihM⟩ := ih
    refine ⟨fun v rest hv => ?_, fun items rest hne hl => ?_, fun ms rest hne hl => ?_⟩
    · cases v with
      | null =>
        simp only [dumpJson]
        rw [parseJson.eq_def]
        simp
      | bool b =>
        cases b <;> (simp only [dumpJson]; rw [parseJson.eq_def]; simp)
      | str s =>
        simp only [dumpJson]
        rw [parseJson.eq_def]
        simp only [List.cons_append, List.append_assoc, List.nil_append]
        simp [parseStringBody_enc s.data, string_mk_data]
      | arr items =>
        cases items with
        | nil =>
          simp only [dumpJson, dumpItems]
          rw [parseJson.eq_def]
          simp
        | cons x xs =>
          obtain ⟨c0, cs0, hdx, hc1, hc2⟩ := dump_head x
          have hlt : lsize (x :: xs) ≤ fuel := by
            simp only [jsize] at hv; omega
          have hitems := ihI (x :: xs) rest (by simp) hlt
          simp only [dumpJson]
          rw [parseJson.eq_def]
          simp only [List.cons_append, List.append_assoc, List.nil_append]
          have hhead : (dumpItems (x :: xs) ++ ']' :: rest).head? = some c0 := by
            rw [dumpItems.eq_def]
            simp [hdx]
          simp [hhead, hc1, hitems]
      | obj members =>
        cases members with
        | nil =>
          simp only [dumpJson, dumpMembers]
          rw [parseJson.eq_def]
          simp
        | cons a b =>
          obtain ⟨k, v⟩ := a
          have hlt : msize ((k, v) :: b) ≤ fuel := by
            simp only [jsize] at hv; omega
          have hmembers := ihM ((k, v) :: b) rest (by simp) hlt
          simp only [dumpJson]
          rw [parseJson.eq_def]
          simp only [List.cons_append, List.append_assoc, List.nil_append]
          have hhead : (dumpMembers ((k, v) :: b) ++ '\x7d' :: rest).head? = some '"' := by
            rw [dumpMembers.eq_def]
            simp
          simp [hhead, hmembers]
    · cases items with
      | nil => exact absurd rfl hne
      | cons x xs =>
        have hx : jsize x ≤ fuel := by simp only [lsize] at hl; omega
        cases xs with
        | nil =>
          have hj := ihJ x (']' :: rest) hx
          rw [parseItems.eq_def]
          simp [dumpItems, hj]
        | cons y ys =>
          have hexp : lsize (y :: ys) = 1 + jsize y + lsize ys := by simp only [lsize]
          have hys : lsize (y :: ys) ≤ fuel := by
            rw [hexp]; simp only [lsize] at hl; omega
          have hj := ihJ x (',' :: (dumpItems (y :: ys) ++ ']' :: rest)) hx
          have hrest := ihI (y :: ys) rest (by simp) hys
          have hsep : dumpItems (x :: y :: ys) = dumpJson x ++ ',' :: dumpItems (y :: ys) := by
            rw [dumpItems.eq_def]
            simp
          rw [parseItems.eq_def, hsep, List.append_assoc]
          simp only [List.cons_append]
          simp [hj, hrest]
    · cases ms with
      | nil => exact absurd rfl hne
      | cons a b =>
        obtain ⟨k, v⟩ := a
        have hv' : jsize v ≤ fuel := by simp only [msize] at hl; omega
        cases b with
        | nil =>
          have hj := ihJ v ('\x7d' :: rest) hv'
          have hsep : dumpMembers [(k, v)] =
              '"' :: (encStringChars k.data ++ '"' :: ':' :: dumpJson v) := by
            simp [dumpMembers]
          rw [parseMembers.eq_def, hsep]
          simp only [List.cons_append, List.append_assoc]
          simp [parseStringBody_enc k.data, hj, string_mk_data]
        | cons p ps =>
          obtain ⟨pk, pv⟩ := p
          have hexp : msize ((pk, pv) :: ps) = 1 + jsize pv + msize ps := by
            simp only [msize]
          have hps : msize ((pk, pv) :: ps) ≤ fuel := by
            rw [hexp]; simp only [msize] at hl; omega
          have hrest := ihM ((pk, pv) :: ps) rest (by simp) hps
          have hj := ihJ v (',' :: (dumpMembers ((pk, pv) :: ps) ++ '\x7d' :: rest)) hv'
          have hsep : dumpMembers ((k, v) :: (pk, pv) :: ps) =
              '"' :: (encStringChars k.data ++ '"' :: ':' ::
                (dumpJson v ++ ',' :: dumpMembers ((pk, pv) :: ps))) := by
            rw [dumpMembers.eq_def]
            simp
          rw [parseMembers.eq_def, hsep]
          simp only [List.cons_append, List.append_assoc]
          simp [parseStringBody_enc k.data, hj, hrest, string_mk_data]

/-- Parsing the serialized JSON text of any value yields the value back. -/
theorem json_roundtrip (v : Json) : json_loads (json_dumps v) = some v := by
  have hsz := jsize_le_dump v
  have h := (parse_dump ((dumpJson v).length + 1)).1 v [] (by omega)
  rw [List.append_nil] at h
  show (match parseJson ((dumpJson v).length + 1) (dumpJson v) with
        | some (w, []) => some w
        | _ => none) = some v
  rw [h]

/-- The JSON value of a card dictionary, in `TarotCard.to_dict`'s key order
(an absent image becomes JSON null, as `json.dump` renders Python None). -/
def CardDict.toJson (c : CardDict) : Json :=
  Json.obj [("name", Json.str c.name), ("description", Json.str c.description),
            ("image_file", match c.image_file with
                           | some p => Json.str p
                           | none => Json.null),
            ("reversed", Json.bool c.reversed)]

/-- The JSON value of a reading result dictionary, in the key order the
reading operations build it. -/
def ReadingResult.toJson : ReadingResult → Json
  | .err m => Json.obj [("error", Json.str m)]
  | .ok t cds i =>
    Json.obj [("type", Json.str t),
              ("cards", Json.arr (cds.map CardDict.toJson)),
              ("interpretation", Json.str i)]

/-- Key lookup among an object's members, first match wins. -/
def lookupMember : List (String × Json) → String → Option Json
  | [], _ => none
  | (k1, v) :: rest, k => if k1 = k then some v else lookupMember rest k

/-- Key lookup in a JSON value: `none` unless it is an object with the key. -/
def Json.lookup : Json → String → Option Json
  | .obj members, k => lookupMember members k
  | _, _ => none

/-- The file store backing `save_reading` and `load_reading`: a mapping from
file names to file texts. -/
def FileSystem : Type := String → Option String

/-- Embedding of `TarotReading.save_reading`: writes the JSON text of the
reading to the named file and returns True. (The Python `except` branch
returning False covers I/O failures of the host, which are outside the
model: here every write lands.) -/
def save_reading (fs : FileSystem) (filename : String) (reading : ReadingResult) :
    Bool × FileSystem :=
  (true, fun p => if p = filename then some (json_dumps reading.toJson) else fs p)

/-- Embedding of `TarotReading.load_reading`: reads the named file and parses
its JSON text; `none` when the file is absent or its text is malformed. -/
def load_reading (fs : FileSystem) (filename : String) : Option Json :=
  match fs filename with
  | some text => json_loads text
  | none => none

/-! ## Claim C7: save/load round trip -/

/-- C7: for every successful reading result and every path, after
`save_reading` returns true a `load_reading` of the same path yields exactly
the saved structure: the same type, the same cards in the same order with
all four fields, and the same interpretation. -/
theorem claim_C7_save_load_roundtrip (fs : FileSystem) (path : String)
    (t : String) (cds : List CardDict) (interp : String) :
    (save_reading fs path (ReadingResult.ok t cds interp)).1 = true ∧
    load_reading (save_reading fs path (ReadingResult.ok t cds interp)).2 path =
      some (ReadingResult.ok t cds interp).toJson ∧
    (ReadingResult.ok t cds interp).toJson.lookup "type" = some (Json.str t) ∧
    (ReadingResult.ok t cds interp).toJson.lookup "cards" =
      some (Json.arr (cds.map CardDict.toJson)) ∧
    (ReadingResult.ok t cds interp).toJson.lookup "interpretation" =
      some (Json.str interp) := by
  refine ⟨rfl, ?_, rfl, rfl, rfl⟩
  have hfs : (save_reading fs path (ReadingResult.ok t cds interp)).2 path =
      some (json_dumps (ReadingResult.ok t cds interp).toJson) := by
    show (if path = path then _ else _) = _
    rw [if_pos rfl]
  rw [load_reading, hfs]
  exact json_roundtrip _
